import Mathlib

/-!
Shallow embedding of the ingestion-side concurrency and codec layer of
libosmium: the deferred-value queue utilities (`queue_util.hpp`), the
background read-thread manager (`read_thread.hpp`) and the bzip2
compressor/decompressor (`bzip2_compression.hpp`).

Pure data flow is modelled directly; calls into the external bzlib
library, `feof`/`ftell` and OS primitives are modelled as oracle records
supplying the externally determined results of those calls; C++
exceptions are modelled with explicit `Option Exn` / `Except Exn`
results together with the mutated state, since a throwing member
function still leaves its completed member writes in place.
-/

namespace Osmium

/-- Exceptions thrown by the code under consideration: `osmium::bzip2_error`
(carrying the bzlib error code and, for `BZ_IO_ERROR`, the OS errno) and
`std::system_error` (from `fdopen`/`fclose`/`fsync` wrappers). -/
inductive Exn where
  | bzip2Error (what : String) (bzip2_error_code : Int) (system_errno : Int)
  | systemError (errno : Int) (what : String)
  deriving DecidableEq, Repr

/-- bzlib status code `BZ_OK`. -/
def BZ_OK : Int := 0

/-- bzlib status code `BZ_STREAM_END`. -/
def BZ_STREAM_END : Int := 4

/-- bzlib status code `BZ_IO_ERROR`. -/
def BZ_IO_ERROR : Int := -6

/-- Constructor of `osmium::bzip2_error`: records the bzlib error code and
captures `errno` exactly when the code is `BZ_IO_ERROR`. -/
def mkBzip2Error (what : String) (error_code : Int) (cur_errno : Int) : Exn :=
  Exn.bzip2Error what error_code (if error_code = BZ_IO_ERROR then cur_errno else 0)

/-!
## The deferred-value queue (`queue_util.hpp`)

`future_string_queue_type` is a FIFO of `std::future<std::string>`; each
slot is fulfilled with either a string value or an exception.  In the
single-producer use modelled here (`add_to_queue`), every slot is
fulfilled immediately at push time, so the queue contents are a list of
already-settled items.
-/

/-- Decidable equality of `Except` results, used to evaluate concrete
runs of the embedded operations. -/
instance {ε α : Type} [DecidableEq ε] [DecidableEq α] : DecidableEq (Except ε α) := fun
  | .ok a, .ok b =>
    if h : a = b then isTrue (by rw [h]) else isFalse (fun hc => h (Except.ok.inj hc))
  | .ok _, .error _ => isFalse (fun hc => Except.noConfusion hc)
  | .error _, .ok _ => isFalse (fun hc => Except.noConfusion hc)
  | .error a, .error b =>
    if h : a = b then isTrue (by rw [h]) else isFalse (fun hc => h (Except.error.inj hc))

/-- One settled slot of the future-string queue: a `std::future<std::string>`
fulfilled with a value (`add_to_queue(queue, data)`) or with an exception
(`add_to_queue(queue, exception_ptr)`). -/
inductive QItem where
  | value (s : String)
  | failure (e : Exn)
  deriving DecidableEq, Repr

/-- The end-of-file sentinel: a slot fulfilled with an empty string. -/
def sentinel : QItem := QItem.value ""

/-!
## The background read loop (`ReadThreadManager::run_in_thread`)

The loop body is driven by two oracles consumed sequentially:
`stops` gives the value of the atomic `m_done` flag observed at each
top-of-loop check, and `reads` gives the outcome of each
`m_decompressor->read()` call (a string, or a thrown exception).
A trace too short to decide whether the loop terminates yields `none`.
-/

/-- The `while (!m_done) { ... }` loop of `run_in_thread`: returns the data
items pushed by `add_to_queue(m_queue, std::move(data))` together with the
exception that escaped a `read()` call, if any (caught by the enclosing
`catch`).  `none` when the oracle traces end before the loop does. -/
def runLoopAux : List Bool → List (Except Exn String) → Option (List QItem × Option Exn)
  | [], _ => none
  | stop :: stops, reads =>
    if stop then
      some ([], none)
    else
      match reads with
      | [] => none
      | r :: rs =>
        match r with
        | .error e => some ([], some e)
        | .ok data =>
          if data = "" then
            some ([], none)
          else
            match runLoopAux stops rs with
            | none => none
            | some (items, ex) => some (QItem.value data :: items, ex)

/-- Embeds `ReadThreadManager::run_in_thread`: runs the read loop, then
`m_decompressor->close()` (whose outcome is `closeRes`); any exception from
the loop or from `close` is caught and pushed as a failed future; finally an
empty string is pushed unconditionally.  The result is the full sequence of
items pushed to the queue. -/
def run_in_thread (stops : List Bool) (reads : List (Except Exn String))
    (closeRes : Except Exn Unit) : Option (List QItem) :=
  match runLoopAux stops reads with
  | none => none
  | some (items, some e) => some (items ++ [QItem.failure e, sentinel])
  | some (items, none) =>
    match closeRes with
    | .ok _ => some (items ++ [sentinel])
    | .error e => some (items ++ [QItem.failure e, sentinel])

/-!
## The consumer-side wrapper (`queue_wrapper<std::string>`)

The wrapper holds a reference to the queue and a `m_done` flag.  We model
the pending contents of the referenced queue as a list carried in the wrapper
state; `wait_and_pop` on an empty queue blocks forever, modelled as `none`.
-/

/-- State of a `queue_wrapper<std::string>` together with the pending
contents of the queue it references. -/
structure queue_wrapper where
  m_queue : List QItem
  m_done : Bool
  deriving DecidableEq, Repr

/-- Embeds `queue_wrapper<std::string>::check_is_done`: sets `m_done` iff the
popped string is empty. -/
def check_is_done (w : queue_wrapper) (data : String) : queue_wrapper :=
  { w with m_done := data = "" }

/-- Embeds `queue_wrapper<std::string>::pop`: if `m_done`, returns a
default-constructed (empty) string without touching the queue; otherwise
performs `wait_and_pop` (blocking forever — `none` — on an empty queue),
then `future.get()`, which rethrows a stored exception *before*
`check_is_done` runs, so a failure pop leaves `m_done` unchanged. -/
def pop (w : queue_wrapper) : Option (Except Exn String × queue_wrapper) :=
  if w.m_done then
    some (.ok "", w)
  else
    match w.m_queue with
    | [] => none
    | q :: qs =>
      match q with
      | .failure e => some (.error e, { w with m_queue := qs })
      | .value data => some (.ok data, check_is_done { w with m_queue := qs } data)

/-- Fueled body of `queue_wrapper::drain`: `while (!m_done) { try { pop(); }
catch (...) {} }`.  Each active `pop` consumes one queue element, so fuel
equal to the queue length is exact: running out of fuel with `m_done` still
false means `wait_and_pop` blocks on an empty queue (`none`). -/
def drainAux : Nat → queue_wrapper → Option queue_wrapper
  | 0, w => if w.m_done then some w else none
  | n + 1, w =>
    if w.m_done then
      some w
    else
      match pop w with
      | none => none
      | some (_, w') => drainAux n w'

/-- Embeds `queue_wrapper::drain` (also run unconditionally by the destructor):
pops, swallowing any exception, until `m_done`. -/
def drain (w : queue_wrapper) : Option queue_wrapper :=
  drainAux w.m_queue.length w

/-!
## `ReadThreadManager` control state (`read_thread.hpp`)

`stop()` writes the atomic flag; `close()` calls `stop()` and joins the
thread when it is still joinable.  The destructor calls `close()` and
swallows exceptions.
-/

/-- Control state of the manager: the atomic `m_done` flag and whether
`m_thread` is still joinable. -/
structure ReadThreadManager where
  m_done : Bool
  joinable : Bool
  deriving DecidableEq, Repr

/-- Embeds `ReadThreadManager::stop`: `m_done = true;` and nothing else. -/
def ReadThreadManager.stop (m : ReadThreadManager) : ReadThreadManager :=
  { m with m_done := true }

/-- Embeds `ReadThreadManager::close`: `stop(); if (m_thread.joinable()) m_thread.join();`
(joining makes the thread non-joinable). -/
def ReadThreadManager.close (m : ReadThreadManager) : ReadThreadManager :=
  let m1 := m.stop
  if m1.joinable then { m1 with joinable := false } else m1

/-!
## `file_wrapper` (`bzip2_compression.hpp`)

Wraps a `FILE*`; `close()` nulls the pointer first, skips `fclose` for
stdout, and throws `std::system_error` when `fclose` fails.
-/

/-- State of `osmium::io::detail::file_wrapper`: whether `m_file` is non-null
and whether the wrapped descriptor is stdout (fd 1). -/
structure file_wrapper where
  m_file : Bool
  is_stdout : Bool
  deriving DecidableEq, Repr

/-- Embeds `file_wrapper::close`: if a file is held, null the member, skip the
actual `fclose` for stdout, and throw `std::system_error` when `fclose`
fails (`fclose_ok` is the oracle outcome of the external call). -/
def file_wrapper.close (f : file_wrapper) (fclose_ok : Bool) (fclose_errno : Int) :
    file_wrapper × Option Exn :=
  if f.m_file then
    let f' := { f with m_file := false }
    if f.is_stdout then
      (f', none)
    else if fclose_ok then
      (f', none)
    else
      (f', some (Exn.systemError fclose_errno "fclose failed"))
  else
    (f, none)

/-- Embeds `osmium::io::detail::throw_bzip2_error` for a nonzero bzlib status:
builds the message from the status number and constructs `bzip2_error`
(which captures `errno` iff the status is `BZ_IO_ERROR`). -/
def throw_bzip2_error (msg : String) (bzlib_error : Int) (cur_errno : Int) : Exn :=
  mkBzip2Error ("bzip2 error: " ++ msg ++ ": " ++ toString bzlib_error) bzlib_error cur_errno

/-!
## `Bzip2Compressor`
-/

/-- State of `Bzip2Compressor`: bytes recorded by the last successful close,
the wrapped file, whether `m_bzfile` is non-null, and the `fsync`
configuration from the `Compressor` base (`do_fsync()`). -/
structure Bzip2Compressor where
  m_file_size : Nat
  m_file : file_wrapper
  m_bzfile : Bool
  sync : Bool
  deriving DecidableEq, Repr

/-- Externally determined outcomes of the calls made by
`Bzip2Compressor::close`: the `BZ2_bzWriteClose64` status and 64-bit byte
count, the success of `reliable_fsync` and `fclose`, and the `errno`
values observable at the corresponding throw sites. -/
structure WriteCloseOracle where
  bzerror : Int
  nbytes_out : Nat
  fsync_ok : Bool
  fsync_errno : Int
  fclose_ok : Bool
  fclose_errno : Int
  cur_errno : Int
  deriving DecidableEq, Repr

/-- Observable side effects of `Bzip2Compressor::close`, in program order. -/
inductive CAct where
  | bzWriteClose64
  | fsyncFile
  | fcloseFile
  deriving DecidableEq, Repr

/-- Embeds `Bzip2Compressor::close`: when `m_bzfile` is non-null, finalize via
`BZ2_bzWriteClose64` (nulling `m_bzfile` immediately), fsync when
configured and a file is held, close the file, and only then convert a
non-`BZ_OK` finalize status into a thrown `bzip2_error`; the byte count is
stored in `m_file_size` only when no exception is thrown.  When `m_bzfile`
is already null the whole body is skipped.  Returns the final state, the
thrown exception if any, and the trace of external actions performed. -/
def Bzip2Compressor.close (st : Bzip2Compressor) (o : WriteCloseOracle) :
    Bzip2Compressor × Option Exn × List CAct :=
  if st.m_bzfile then
    let st1 : Bzip2Compressor := { st with m_bzfile := false }
    let fsyncTaken : Bool := st1.sync && st1.m_file.m_file
    if fsyncTaken && !o.fsync_ok then
      (st1, some (Exn.systemError o.fsync_errno "fsync failed"),
        [CAct.bzWriteClose64, CAct.fsyncFile])
    else
      let tr1 := [CAct.bzWriteClose64] ++ (if fsyncTaken then [CAct.fsyncFile] else [])
      let fc := st1.m_file.close o.fclose_ok o.fclose_errno
      let st2 : Bzip2Compressor := { st1 with m_file := fc.1 }
      let tr2 := tr1 ++ (if st1.m_file.m_file then [CAct.fcloseFile] else [])
      match fc.2 with
      | some e => (st2, some e, tr2)
      | none =>
        if o.bzerror ≠ BZ_OK then
          (st2, some (mkBzip2Error "bzip2 error: write close failed" o.bzerror o.cur_errno), tr2)
        else
          ({ st2 with m_file_size := o.nbytes_out }, none, tr2)
  else
    (st, none, [])

/-- Embeds `Bzip2Compressor::file_size`: returns `m_file_size`. -/
def Bzip2Compressor.file_size (st : Bzip2Compressor) : Nat :=
  st.m_file_size

/-!
## `Bzip2Decompressor` (file-descriptor based)
-/

/-- State of `Bzip2Decompressor`: the wrapped file, whether `m_bzfile` is
non-null, the `m_stream_end` flag, the offset stored by the `Decompressor`
base via `set_offset`, and the page-eviction toggle
(`want_buffered_pages_removed()`). -/
structure Bzip2Decompressor where
  m_file : file_wrapper
  m_bzfile : Bool
  m_stream_end : Bool
  m_offset : Nat
  want_pages_removed : Bool
  deriving DecidableEq, Repr

/-- Externally determined outcomes of the calls one `Bzip2Decompressor::read`
may make: `ftell` before and after, the bytes and status produced by
`BZ2_bzRead`, `feof`, the `BZ2_bzReadGetUnused` result, the
`BZ2_bzReadClose` status, the two possible `BZ2_bzReadOpen` outcomes
(seeded with leftover bytes, and fresh), and the `errno` observable at a
throw site. -/
structure BzReadOracle where
  ftell_before : Int
  data : String
  bzerror : Int
  at_eof : Bool
  get_unused_status : Int
  unused : String
  read_close_status : Int
  reopen_seeded_ok : Bool
  reopen_seeded_status : Int
  reopen_fresh_ok : Bool
  reopen_fresh_status : Int
  ftell_after : Nat
  cur_errno : Int
  deriving DecidableEq, Repr

/-- Observable external actions of `Bzip2Decompressor::read`/`close`, in
program order.  `reopenSeeded` carries the leftover bytes passed to
`BZ2_bzReadOpen`; `markStreamEnd` records setting `m_stream_end`. -/
inductive DAct where
  | removePages
  | bzRead
  | getUnused
  | readClose
  | reopenSeeded (seed : String)
  | reopenFresh
  | markStreamEnd
  | fcloseFile
  deriving DecidableEq, Repr

/-- Embeds `Bzip2Decompressor::read`: evict consumed pages when configured; when
`m_stream_end` is not yet set, call `BZ2_bzRead`; a status other than
`BZ_OK`/`BZ_STREAM_END` throws.  On `BZ_STREAM_END`: if the `FILE` is not
at EOF, fetch the unused bytes; when there are some, close the current
decode stream and re-open one seeded with exactly those bytes; otherwise
close and try a fresh `BZ2_bzReadOpen` for a concatenated stream, and when
that fails mark `m_stream_end` and null `m_bzfile`.  If the `FILE` is at
EOF, mark `m_stream_end`.  The buffer resized to the byte count read is
returned and `set_offset` runs last (not reached when an exception is
thrown).  Returns final state, result (value or thrown exception), and
the action trace. -/
def Bzip2Decompressor.read (st : Bzip2Decompressor) (o : BzReadOracle) :
    Bzip2Decompressor × Except Exn String × List DAct :=
  let tr0 : List DAct :=
    if 0 < o.ftell_before ∧ st.want_pages_removed then [DAct.removePages] else []
  if st.m_stream_end then
    ({ st with m_offset := o.ftell_after }, .ok "", tr0)
  else
    let tr1 := tr0 ++ [DAct.bzRead]
    if o.bzerror ≠ BZ_OK ∧ o.bzerror ≠ BZ_STREAM_END then
      (st, .error (throw_bzip2_error "read failed" o.bzerror o.cur_errno), tr1)
    else if o.bzerror = BZ_STREAM_END then
      if ¬ o.at_eof then
        let tr2 := tr1 ++ [DAct.getUnused]
        if o.get_unused_status ≠ BZ_OK then
          (st, .error (throw_bzip2_error "get unused failed" o.get_unused_status o.cur_errno), tr2)
        else if o.unused ≠ "" then
          let tr3 := tr2 ++ [DAct.readClose]
          if o.read_close_status ≠ BZ_OK then
            (st, .error (mkBzip2Error "bzip2 error: read close failed"
              o.read_close_status o.cur_errno), tr3)
          else
            let tr4 := tr3 ++ [DAct.reopenSeeded o.unused]
            if ¬ o.reopen_seeded_ok then
              ({ st with m_bzfile := false },
                .error (mkBzip2Error "bzip2 error: read open failed"
                  o.reopen_seeded_status o.cur_errno), tr4)
            else
              ({ st with m_bzfile := true, m_offset := o.ftell_after }, .ok o.data, tr4)
        else
          let tr3 := tr2 ++ [DAct.readClose]
          if o.read_close_status ≠ BZ_OK then
            (st, .error (mkBzip2Error "bzip2 error: read close failed"
              o.read_close_status o.cur_errno), tr3)
          else
            let tr4 := tr3 ++ [DAct.reopenFresh]
            if ¬ o.reopen_fresh_ok ∨ o.reopen_fresh_status ≠ BZ_OK then
              ({ st with m_stream_end := true, m_bzfile := false, m_offset := o.ftell_after },
                .ok o.data, tr4 ++ [DAct.markStreamEnd])
            else
              ({ st with m_bzfile := true, m_offset := o.ftell_after }, .ok o.data, tr4)
      else
        ({ st with m_stream_end := true, m_offset := o.ftell_after }, .ok o.data,
          tr1 ++ [DAct.markStreamEnd])
    else
      ({ st with m_offset := o.ftell_after }, .ok o.data, tr1)

/-- Externally determined outcomes of `Bzip2Decompressor::close`: the
`BZ2_bzReadClose` status, the `fclose` outcome and the `errno` at a throw
site. -/
structure ReadCloseOracle where
  read_close_status : Int
  fclose_ok : Bool
  fclose_errno : Int
  cur_errno : Int
  deriving DecidableEq, Repr

/-- Embeds `Bzip2Decompressor::close`: when `m_bzfile` is non-null, evict pages
when configured, call `BZ2_bzReadClose` (nulling `m_bzfile` immediately),
close the file, and only then convert a non-`BZ_OK` close status into a
thrown `bzip2_error`.  When `m_bzfile` is already null the whole body is
skipped. -/
def Bzip2Decompressor.close (st : Bzip2Decompressor) (o : ReadCloseOracle) :
    Bzip2Decompressor × Option Exn × List DAct :=
  if st.m_bzfile then
    let tr1 := (if st.want_pages_removed then [DAct.removePages] else []) ++ [DAct.readClose]
    let st1 : Bzip2Decompressor := { st with m_bzfile := false }
    let fc := st1.m_file.close o.fclose_ok o.fclose_errno
    let st2 : Bzip2Decompressor := { st1 with m_file := fc.1 }
    let tr2 := tr1 ++ (if st1.m_file.m_file then [DAct.fcloseFile] else [])
    match fc.2 with
    | some e => (st2, some e, tr2)
    | none =>
      if o.read_close_status ≠ BZ_OK then
        (st2, some (mkBzip2Error "bzip2 error: read close failed"
          o.read_close_status o.cur_errno), tr2)
      else
        (st2, none, tr2)
  else
    (st, none, [])

/-!
## `Bzip2BufferDecompressor` (in-memory)
-/

/-- State of `Bzip2BufferDecompressor`: `some size` while `m_buffer` is
non-null (with `m_buffer_size = size`), and whether the library-internal
state of the `bz_stream` is still allocated (non-null, i.e.
`BZ2_bzDecompressEnd` has not yet freed it). -/
structure Bzip2BufferDecompressor where
  m_buffer : Option Nat
  stream_state : Bool
  deriving DecidableEq, Repr

/-- Externally determined outcome of one `BZ2_bzDecompress` call: its
status, the bytes it wrote to the output buffer, and the `errno`
observable at the throw site. -/
structure BufReadOracle where
  result : Int
  out : String
  cur_errno : Int
  deriving DecidableEq, Repr

/-- Embeds `Bzip2BufferDecompressor::read`: when `m_buffer` is non-null, run
`BZ2_bzDecompress`; any status other than `BZ_OK` clears `m_buffer` (and
`m_buffer_size`); a status other than `BZ_OK`/`BZ_STREAM_END` then throws;
otherwise the output resized to the bytes produced is returned.  When
`m_buffer` is null, returns an empty string. -/
def Bzip2BufferDecompressor.read (st : Bzip2BufferDecompressor) (o : BufReadOracle) :
    Bzip2BufferDecompressor × Except Exn String :=
  match st.m_buffer with
  | none => (st, .ok "")
  | some _ =>
    let st1 := if o.result ≠ BZ_OK then { st with m_buffer := none } else st
    if o.result ≠ BZ_OK ∧ o.result ≠ BZ_STREAM_END then
      (st1, .error (mkBzip2Error "bzip2 error: decompress failed: " o.result o.cur_errno))
    else
      (st1, .ok o.out)

/-- Embeds `Bzip2BufferDecompressor::close`: calls `BZ2_bzDecompressEnd` on
`m_bzstream` unconditionally and ignores its return value; per bzlib
semantics the call frees the internal stream state when one is present
and is a no-op (returning `BZ_PARAM_ERROR`) afterwards, so the freeing
work is recorded in the trace only when state was still allocated.  This
close has no throw site at all. -/
def Bzip2BufferDecompressor.close (st : Bzip2BufferDecompressor) :
    Bzip2BufferDecompressor × List Bool :=
  if st.stream_state then
    ({ st with stream_state := false }, [true])
  else
    (st, [])

/-!
## Helper lemmas about the read loop
-/

/-- Every item pushed from inside the read loop is a non-empty string value:
an empty read breaks out of the loop before pushing, and exceptions escape
to the enclosing handler rather than being pushed by the loop body. -/
theorem runLoopAux_items (stops : List Bool) (reads : List (Except Exn String))
    (items : List QItem) (ex : Option Exn)
    (h : runLoopAux stops reads = some (items, ex)) :
    ∀ q ∈ items, ∃ s, q = QItem.value s ∧ s ≠ "" := by
  induction stops generalizing reads items ex with
  | nil => simp [runLoopAux] at h
  | cons stop stops ih =>
    simp only [runLoopAux] at h
    split at h
    · simp only [Option.some.injEq, Prod.mk.injEq] at h
      rw [← h.1]
      intro q hq
      exact absurd hq (List.not_mem_nil q)
    · match reads with
      | [] => exact absurd h (by simp)
      | .error e :: rs =>
        simp only [Option.some.injEq, Prod.mk.injEq] at h
        rw [← h.1]
        intro q hq
        exact absurd hq (List.not_mem_nil q)
      | .ok data :: rs =>
        simp only at h
        split at h
        · simp only [Option.some.injEq, Prod.mk.injEq] at h
          rw [← h.1]
          intro q hq
          exact absurd hq (List.not_mem_nil q)
        · next hne =>
          match hrec : runLoopAux stops rs with
          | none => rw [hrec] at h; exact absurd h (by simp)
          | some (items', ex') =>
            rw [hrec] at h
            simp only [Option.some.injEq, Prod.mk.injEq] at h
            rw [← h.1]
            intro q hq
            rcases List.mem_cons.mp hq with hq | hq
            · exact ⟨data, hq, hne⟩
            · exact ih rs items' ex' hrec q hq

/-- The full pushed sequence of `run_in_thread` is the non-empty data
items, followed by at most one failed future, followed by the sentinel. -/
theorem run_in_thread_shape (stops : List Bool) (reads : List (Except Exn String))
    (closeRes : Except Exn Unit) (out : List QItem)
    (h : run_in_thread stops reads closeRes = some out) :
    ∃ items tail, out = items ++ tail ∧
      (∀ q ∈ items, ∃ s, q = QItem.value s ∧ s ≠ "") ∧
      (tail = [sentinel] ∨ ∃ e, tail = [QItem.failure e, sentinel]) := by
  rw [run_in_thread] at h
  match hrec : runLoopAux stops reads with
  | none => rw [hrec] at h; exact absurd h (by simp)
  | some (items, some e) =>
    rw [hrec] at h
    simp only [Option.some.injEq] at h
    exact ⟨items, [QItem.failure e, sentinel], h.symm,
      runLoopAux_items stops reads items (some e) hrec, Or.inr ⟨e, rfl⟩⟩
  | some (items, none) =>
    rw [hrec] at h
    match closeRes with
    | .ok _ =>
      simp only [Option.some.injEq] at h
      exact ⟨items, [sentinel], h.symm,
        runLoopAux_items stops reads items none hrec, Or.inl rfl⟩
    | .error e =>
      simp only [Option.some.injEq] at h
      exact ⟨items, [QItem.failure e, sentinel], h.symm,
        runLoopAux_items stops reads items none hrec, Or.inr ⟨e, rfl⟩⟩

/-- Claim C1: every completed run of `ReadThreadManager::run_in_thread` —
whether the loop ends by natural end-of-file, by a stop request, or by a
captured failure — pushes exactly one sentinel (empty-string value) into
the queue, and that sentinel is the last element pushed. -/
theorem run_in_thread_one_sentinel_last (stops : List Bool)
    (reads : List (Except Exn String)) (closeRes : Except Exn Unit) (out : List QItem)
    (h : run_in_thread stops reads closeRes = some out) :
    out.count sentinel = 1 ∧ out ≠ [] ∧ out.getLast? = some sentinel := by
  obtain ⟨items, tail, hout, hitems, htail⟩ :=
    run_in_thread_shape stops reads closeRes out h
  have hcount0 : items.count sentinel = 0 := by
    rw [List.count_eq_zero]
    intro hmem
    obtain ⟨s, hq, hne⟩ := hitems sentinel hmem
    exact hne (by cases hq; rfl)
  have htail_count : tail.count sentinel = 1 := by
    rcases htail with rfl | ⟨e, rfl⟩
    · simp [sentinel]
    · simp [sentinel, List.count_cons]
  have htail_ne : tail ≠ [] := by
    rcases htail with rfl | ⟨e, rfl⟩ <;> simp
  have htail_last : tail.getLast? = some sentinel := by
    rcases htail with rfl | ⟨e, rfl⟩ <;> rfl
  refine ⟨?_, ?_, ?_⟩
  · rw [hout, List.count_append, hcount0, htail_count]
  · rw [hout]
    simp [htail_ne]
  · rw [hout, List.getLast?_append_of_ne_nil items htail_ne, htail_last]

/-- Concrete witness for C1: a run with one data chunk and a clean EOF. -/
theorem run_in_thread_one_sentinel_last_witness :
    ([QItem.value "A", sentinel] : List QItem).count sentinel = 1 ∧
    ([QItem.value "A", sentinel] : List QItem) ≠ [] ∧
    ([QItem.value "A", sentinel] : List QItem).getLast? = some sentinel :=
  run_in_thread_one_sentinel_last [false, false] [.ok "A", .ok ""] (.ok ())
    [QItem.value "A", sentinel] (by decide)

/-- Claim C2: a failure raised anywhere inside the background loop (a
decompressor read failure, or a close failure after the loop) is captured
and pushed into the queue as a failed future right before the sentinel; a
consumer wrapper positioned at that point has its next `pop` rethrow that
exact failure (leaving `m_done` untouched), and the `pop` after that
return the sentinel and flip to DONE. -/
theorem loop_failure_popped_then_sentinel (stops : List Bool)
    (reads : List (Except Exn String)) (closeRes : Except Exn Unit)
    (items : List QItem) (e : Exn) (out : List QItem)
    (h : run_in_thread stops reads closeRes = some out)
    (hfail : runLoopAux stops reads = some (items, some e) ∨
      (runLoopAux stops reads = some (items, none) ∧ closeRes = .error e)) :
    out = items ++ [QItem.failure e, sentinel] ∧
    ∀ w : queue_wrapper, w.m_done = false → w.m_queue = [QItem.failure e, sentinel] →
      pop w = some (.error e, { w with m_queue := [sentinel] }) ∧
      pop { w with m_queue := [sentinel] } =
        some (.ok "", { w with m_queue := [], m_done := true }) := by
  constructor
  · rw [run_in_thread] at h
    rcases hfail with hf | ⟨hf, hc⟩
    · rw [hf] at h
      simpa using h.symm
    · rw [hf, hc] at h
      simpa using h.symm
  · intro w h1 h2
    constructor
    · simp [pop, h1, h2]
    · simp [pop, check_is_done, h1, sentinel]

/-- Concrete witness for C2: a first read that throws; the consumer pops
the failure, then the sentinel. -/
theorem loop_failure_popped_then_sentinel_witness :
    ([QItem.failure (Exn.systemError 5 "boom"), sentinel] : List QItem) =
      [] ++ [QItem.failure (Exn.systemError 5 "boom"), sentinel] ∧
    pop ⟨[QItem.failure (Exn.systemError 5 "boom"), sentinel], false⟩ =
      some (.error (Exn.systemError 5 "boom"), ⟨[sentinel], false⟩) ∧
    pop ⟨[sentinel], false⟩ = some (.ok "", ⟨[], true⟩) := by
  obtain ⟨h1, h2⟩ := loop_failure_popped_then_sentinel [false]
    [.error (Exn.systemError 5 "boom")] (.ok ()) [] (Exn.systemError 5 "boom")
    [QItem.failure (Exn.systemError 5 "boom"), sentinel] (by decide) (Or.inl (by decide))
  exact ⟨h1, (h2 ⟨[QItem.failure (Exn.systemError 5 "boom"), sentinel], false⟩ rfl rfl).1,
    (h2 ⟨[QItem.failure (Exn.systemError 5 "boom"), sentinel], false⟩ rfl rfl).2⟩

/-- Claim C3: in the DONE state, `queue_wrapper::pop` returns the
default-constructed empty value and is the identity on the wrapper state:
the queue is untouched (no `wait_and_pop` happens), the wrapper is
unchanged, and hence repeated pops are idempotent and side-effect-free. -/
theorem pop_done_identity (w : queue_wrapper) (h : w.m_done = true) :
    pop w = some (.ok "", w) := by
  simp [pop, h]

/-- Concrete witness for C3: a DONE wrapper with a non-empty queue is left
exactly as it is. -/
theorem pop_done_identity_witness :
    pop ⟨[QItem.value "x"], true⟩ = some (.ok "", ⟨[QItem.value "x"], true⟩) :=
  pop_done_identity ⟨[QItem.value "x"], true⟩ rfl

/-- Lemma: `drainAux` reaches DONE whenever the queue already carries the sentinel
(or the wrapper is DONE already), swallowing every failed future on the
way, with fuel bounding the queue length. -/
theorem drainAux_reaches_done (n : Nat) (w : queue_wrapper)
    (hlen : w.m_queue.length ≤ n)
    (h : w.m_done = true ∨ sentinel ∈ w.m_queue) :
    ∃ w', drainAux n w = some w' ∧ w'.m_done = true := by
  induction n generalizing w with
  | zero =>
    have hq : w.m_queue = [] := List.length_eq_zero.mp (Nat.le_zero.mp hlen)
    have hd : w.m_done = true := by
      rcases h with h | h
      · exact h
      · rw [hq] at h
        exact absurd h (List.not_mem_nil _)
    exact ⟨w, by simp [drainAux, hd], hd⟩
  | succ n ih =>
    cases hw : w.m_done with
    | true => exact ⟨w, by simp [drainAux, hw], hw⟩
    | false =>
      have hmem : sentinel ∈ w.m_queue := by
        rcases h with h | h
        · exact absurd h (by simp [hw])
        · exact h
      match hq : w.m_queue with
      | [] => exact absurd (hq ▸ hmem) (List.not_mem_nil _)
      | QItem.failure e :: qs =>
        have hlen' : qs.length ≤ n := by
          rw [hq, List.length_cons] at hlen
          exact Nat.le_of_succ_le_succ hlen
        have hmem' : sentinel ∈ qs := by
          rw [hq] at hmem
          rcases List.mem_cons.mp hmem with hc | hc
          · exact absurd hc (by simp [sentinel])
          · exact hc
        obtain ⟨w', hw', hd'⟩ := ih ⟨qs, false⟩ (by simpa using hlen') (Or.inr hmem')
        refine ⟨w', ?_, hd'⟩
        simp only [drainAux, hw, pop, hq]
        simpa using hw'
      | QItem.value s :: qs =>
        have hlen' : qs.length ≤ n := by
          rw [hq, List.length_cons] at hlen
          exact Nat.le_of_succ_le_succ hlen
        by_cases hs : s = ""
        · obtain ⟨w', hw', hd'⟩ := ih ⟨qs, true⟩ (by simpa using hlen') (Or.inl rfl)
          refine ⟨w', ?_, hd'⟩
          simp only [drainAux, hw, pop, hq, check_is_done, hs]
          simpa using hw'
        · have hmem' : sentinel ∈ qs := by
            rw [hq] at hmem
            rcases List.mem_cons.mp hmem with hc | hc
            · exact absurd hc (by simp [sentinel, Ne.symm hs])
            · exact hc
          obtain ⟨w', hw', hd'⟩ := ih ⟨qs, false⟩ (by simpa using hlen') (Or.inr hmem')
          refine ⟨w', ?_, hd'⟩
          simp only [drainAux, hw, pop, hq, check_is_done, hs]
          simpa [hs] using hw'

/-- Claim C4: `queue_wrapper::drain` (run unconditionally by the
destructor) repeatedly pops, swallowing every failure raised by a popped
failed future, until the wrapper is DONE: whenever the queue carries the
sentinel (as the producer of C1 guarantees) — or the wrapper is DONE
already — drain terminates normally (raising nothing, by construction of
its result type) and leaves the wrapper DONE. -/
theorem drain_swallows_and_reaches_done (w : queue_wrapper)
    (h : w.m_done = true ∨ sentinel ∈ w.m_queue) :
    ∃ w', drain w = some w' ∧ w'.m_done = true :=
  drainAux_reaches_done w.m_queue.length w (Nat.le_refl _) h

/-- Concrete witness for C4: draining an abandoned wrapper whose queue
still holds a failed future, a data chunk and the sentinel. -/
theorem drain_swallows_and_reaches_done_witness :
    ∃ w', drain ⟨[QItem.failure (Exn.systemError 9 "io"), QItem.value "B", sentinel], false⟩ =
      some w' ∧ w'.m_done = true :=
  drain_swallows_and_reaches_done
    ⟨[QItem.failure (Exn.systemError 9 "io"), QItem.value "B", sentinel], false⟩
    (Or.inr (by decide))

/-- The stop flag is consulted only at the top of the loop: if the check
at iteration `i` observes the flag set, the loop has pushed at most `i`
chunks in total, so no read/push cycle begins after the flag is seen. -/
theorem runLoopAux_stop_bound (stops : List Bool) (reads : List (Except Exn String))
    (items : List QItem) (ex : Option Exn) (i : Nat)
    (h : runLoopAux stops reads = some (items, ex))
    (hstop : stops.get? i = some true) :
    items.length ≤ i := by
  induction stops generalizing reads items ex i with
  | nil => simp [runLoopAux] at h
  | cons stop stops ih =>
    simp only [runLoopAux] at h
    split at h
    · simp only [Option.some.injEq, Prod.mk.injEq] at h
      rw [← h.1]
      exact Nat.zero_le i
    · next hns =>
      match i with
      | 0 =>
        simp only [List.get?] at hstop
        exact absurd (Option.some.injEq _ _ ▸ hstop) hns
      | i + 1 =>
        match reads with
        | [] => exact absurd h (by simp)
        | .error e :: rs =>
          simp only [Option.some.injEq, Prod.mk.injEq] at h
          rw [← h.1]
          exact Nat.zero_le _
        | .ok data :: rs =>
          simp only at h
          split at h
          · simp only [Option.some.injEq, Prod.mk.injEq] at h
            rw [← h.1]
            exact Nat.zero_le _
          · match hrec : runLoopAux stops rs with
            | none => rw [hrec] at h; exact absurd h (by simp)
            | some (items', ex') =>
              rw [hrec] at h
              simp only [Option.some.injEq, Prod.mk.injEq] at h
              rw [← h.1, List.length_cons]
              exact Nat.succ_le_succ (ih rs items' ex' i hrec hstop)

/-- Claim C9: `stop()` only sets the atomic flag (the thread handle is
untouched), never blocks and is idempotent; `close()` requests stop, joins
the thread, and is idempotent (safe to call repeatedly and from the
destructor); and the flag is consulted only at the top of the read loop,
so once a check observes a stop request no further read/push cycle starts
— at most the one read in flight when the flag was raised completes. -/
theorem stop_cooperative :
    (∀ m : ReadThreadManager, m.stop.m_done = true ∧ m.stop.joinable = m.joinable ∧
      m.stop.stop = m.stop) ∧
    (∀ m : ReadThreadManager, m.close.m_done = true ∧ m.close.joinable = false ∧
      m.close.close = m.close) ∧
    (∀ (stops : List Bool) (reads : List (Except Exn String)) (items : List QItem)
      (ex : Option Exn) (i : Nat), runLoopAux stops reads = some (items, ex) →
      stops.get? i = some true → items.length ≤ i) := by
  refine ⟨fun m => ⟨rfl, rfl, rfl⟩, fun m => ⟨?_, ?_, ?_⟩, runLoopAux_stop_bound⟩
  · simp [ReadThreadManager.close, ReadThreadManager.stop]
    split <;> rfl
  · simp [ReadThreadManager.close, ReadThreadManager.stop]
    split <;> simp_all
  · simp [ReadThreadManager.close, ReadThreadManager.stop]
    split <;> simp_all

/-- Concrete witness for C9: a manager with a live thread, and a loop whose
second top-of-loop check observes the stop flag after one chunk was read. -/
theorem stop_cooperative_witness :
    ((⟨false, true⟩ : ReadThreadManager).stop.m_done = true ∧
      (⟨false, true⟩ : ReadThreadManager).stop.joinable = (true : Bool) ∧
      (⟨false, true⟩ : ReadThreadManager).stop.stop =
        (⟨false, true⟩ : ReadThreadManager).stop) ∧
    ([QItem.value "A"] : List QItem).length ≤ 1 := by
  refine ⟨?_, ?_⟩
  · have h := stop_cooperative.1 ⟨false, true⟩
    exact h
  · exact stop_cooperative.2.2 [false, true] [.ok "A"] [QItem.value "A"] none 1
      (by decide) (by decide)

/-- After any `Bzip2Compressor::close`, `m_bzfile` is null: it is nulled
right after `BZ2_bzWriteClose64`, before any throw site. -/
theorem Bzip2Compressor_close_bzfile (st : Bzip2Compressor) (o : WriteCloseOracle) :
    ((Bzip2Compressor.close st o).1).m_bzfile = false := by
  simp only [Bzip2Compressor.close]
  split
  · split
    · rfl
    · split
      · rfl
      · split <;> rfl
  · next h => simpa using h

/-- After any `Bzip2Decompressor::close`, `m_bzfile` is null: it is nulled
right after `BZ2_bzReadClose`, before any throw site. -/
theorem Bzip2Decompressor_close_bzfile (st : Bzip2Decompressor) (o : ReadCloseOracle) :
    ((Bzip2Decompressor.close st o).1).m_bzfile = false := by
  simp only [Bzip2Decompressor.close]
  split
  · split
    · rfl
    · split <;> rfl
  · next h => simpa using h

/-- After any `Bzip2BufferDecompressor::close`, the bzlib stream state is
freed (`BZ2_bzDecompressEnd` nulls it). -/
theorem Bzip2BufferDecompressor_close_state (st : Bzip2BufferDecompressor) :
    ((Bzip2BufferDecompressor.close st).1).stream_state = false := by
  simp only [Bzip2BufferDecompressor.close]
  split
  · rfl
  · next h => simpa using h

/-- Claim C6: `close` is idempotent on every bzip2 handle: after one
`close` (whatever its outcome), a second `close` — e.g. the one issued by
the destructor — changes nothing, performs no finalization work (empty
action trace) and raises no failure, for `Bzip2Compressor::close`,
`Bzip2Decompressor::close` and `Bzip2BufferDecompressor::close` alike. -/
theorem close_idempotent :
    (∀ (st : Bzip2Compressor) (o o' : WriteCloseOracle),
      Bzip2Compressor.close (Bzip2Compressor.close st o).1 o' =
        ((Bzip2Compressor.close st o).1, none, [])) ∧
    (∀ (st : Bzip2Decompressor) (o o' : ReadCloseOracle),
      Bzip2Decompressor.close (Bzip2Decompressor.close st o).1 o' =
        ((Bzip2Decompressor.close st o).1, none, [])) ∧
    (∀ st : Bzip2BufferDecompressor,
      Bzip2BufferDecompressor.close (Bzip2BufferDecompressor.close st).1 =
        ((Bzip2BufferDecompressor.close st).1, [])) := by
  refine ⟨fun st o o' => ?_, fun st o o' => ?_, fun st => ?_⟩
  · rw [Bzip2Compressor.close]
    simp [Bzip2Compressor_close_bzfile st o]
  · rw [Bzip2Decompressor.close]
    simp [Bzip2Decompressor_close_bzfile st o]
  · rw [Bzip2BufferDecompressor.close]
    simp [Bzip2BufferDecompressor_close_state st]

/-- Claim C7: on an open handle, `Bzip2Compressor::close` finalizes the
stream, fsyncs when configured, then always closes the file, and only
after that cleanup converts a non-`BZ_OK` finalize status into a raised
failure: the action trace is the same whether or not the finalize status
was a failure, and the returned failure is present exactly when the
status was not `BZ_OK` (given that `fsync`/`fclose` themselves succeed and
the file is not stdout). -/
theorem compressor_close_cleanup_order (st : Bzip2Compressor) (o : WriteCloseOracle)
    (hbz : st.m_bzfile = true) (hfile : st.m_file.m_file = true)
    (hstd : st.m_file.is_stdout = false) (hfs : o.fsync_ok = true)
    (hfc : o.fclose_ok = true) :
    Bzip2Compressor.close st o =
      ({ st with
          m_file_size := if o.bzerror = BZ_OK then o.nbytes_out else st.m_file_size,
          m_bzfile := false,
          m_file := { st.m_file with m_file := false } },
        (if o.bzerror = BZ_OK then none
          else some (mkBzip2Error "bzip2 error: write close failed" o.bzerror o.cur_errno)),
        [CAct.bzWriteClose64] ++ (if st.sync then [CAct.fsyncFile] else [])
          ++ [CAct.fcloseFile]) := by
  by_cases hz : o.bzerror = BZ_OK <;> cases hs : st.sync <;>
    simp [Bzip2Compressor.close, file_wrapper.close, hbz, hfile, hstd, hfs, hfc, hz, hs]

/-- Concrete witness for C7: a failing finalize status (-5) on an open,
fsync-configured handle — the full cleanup trace still runs, the failure
is returned after it, and the stored size is untouched. -/
theorem compressor_close_cleanup_order_witness :
    Bzip2Compressor.close ⟨7, ⟨true, false⟩, true, true⟩ ⟨-5, 123, true, 0, true, 0, 0⟩ =
      (⟨7, ⟨false, false⟩, false, true⟩,
        some (mkBzip2Error "bzip2 error: write close failed" (-5) 0),
        [CAct.bzWriteClose64, CAct.fsyncFile, CAct.fcloseFile]) := by
  have h := compressor_close_cleanup_order ⟨7, ⟨true, false⟩, true, true⟩
    ⟨-5, 123, true, 0, true, 0, 0⟩ rfl rfl rfl rfl rfl
  exact h.trans (by decide)

/-- A successfully constructed `Bzip2Compressor`: the initializers set
`m_file_size` to 0, the constructor opens the file and the bzlib write
stream. -/
def Bzip2Compressor.init (is_stdout sync : Bool) : Bzip2Compressor :=
  ⟨0, ⟨true, is_stdout⟩, true, sync⟩

/-- Claim C10: when the finalize step of `Bzip2Compressor::close` reports
a non-`BZ_OK` status, `m_file_size` is not updated (the store happens
after the throw site), so `file_size()` keeps returning its previous
value — 0 for a fresh compressor on which no close ever succeeded — and a
failure is raised whenever the handle was open. -/
theorem file_size_unchanged_on_failed_finalize (st : Bzip2Compressor)
    (o : WriteCloseOracle) (hfail : ¬ o.bzerror = BZ_OK) :
    ((Bzip2Compressor.close st o).1).file_size = st.file_size ∧
    (st.m_bzfile = true → ((Bzip2Compressor.close st o).2.1).isSome = true) ∧
    (∀ is_stdout sync : Bool, (Bzip2Compressor.init is_stdout sync).file_size = 0) := by
  refine ⟨?_, ?_, fun _ _ => rfl⟩
  · cases hbz : st.m_bzfile <;>
    cases hs : st.sync <;>
    cases hmf : st.m_file.m_file <;>
    cases hstd : st.m_file.is_stdout <;>
    cases hfso : o.fsync_ok <;>
    cases hfco : o.fclose_ok <;>
      simp [Bzip2Compressor.close, file_wrapper.close, Bzip2Compressor.file_size,
        hbz, hs, hmf, hstd, hfso, hfco, hfail]
  · intro hbz
    cases hs : st.sync <;>
    cases hmf : st.m_file.m_file <;>
    cases hstd : st.m_file.is_stdout <;>
    cases hfso : o.fsync_ok <;>
    cases hfco : o.fclose_ok <;>
      simp [Bzip2Compressor.close, file_wrapper.close,
        hbz, hs, hmf, hstd, hfso, hfco, hfail]

/-- Concrete witness for C10: finalize fails with `BZ_IO_ERROR` on an open
handle; the stored size stays 7 and a failure is returned. -/
theorem file_size_unchanged_on_failed_finalize_witness :
    ((Bzip2Compressor.close ⟨7, ⟨true, false⟩, true, false⟩
        ⟨-6, 999, true, 0, true, 0, 3⟩).1).file_size = (7 : Nat) ∧
    ((true : Bool) = true →
      ((Bzip2Compressor.close ⟨7, ⟨true, false⟩, true, false⟩
        ⟨-6, 999, true, 0, true, 0, 3⟩).2.1).isSome = true) ∧
    (∀ is_stdout sync : Bool, (Bzip2Compressor.init is_stdout sync).file_size = 0) := by
  have h := file_size_unchanged_on_failed_finalize ⟨7, ⟨true, false⟩, true, false⟩
    ⟨-6, 999, true, 0, true, 0, 3⟩ (by decide)
  exact ⟨h.1, fun _ => h.2.1 rfl, h.2.2⟩

/-- Counterexample to Claim C5 as stated: at a multi-stream boundary where
`BZ2_bzRead` reports `BZ_STREAM_END` having produced zero bytes and
leftover input is buffered in the library, `Bzip2Decompressor::read`
re-opens the seeded stream and returns an *empty* chunk with
`m_stream_end` still false — and the very next read returns data again.
So an empty result is not returned "exactly once to signal end-of-input",
and a read after an empty one need not be empty. -/
theorem read_empty_not_terminal :
    ((Bzip2Decompressor.read ⟨⟨true, false⟩, true, false, 0, false⟩
        ⟨0, "", 4, false, 0, "XY", 0, true, 0, true, 0, 100, 0⟩).2.1 = .ok "") ∧
    ((Bzip2Decompressor.read ⟨⟨true, false⟩, true, false, 0, false⟩
        ⟨0, "", 4, false, 0, "XY", 0, true, 0, true, 0, 100, 0⟩).1).m_stream_end = false ∧
    ((Bzip2Decompressor.read
        (Bzip2Decompressor.read ⟨⟨true, false⟩, true, false, 0, false⟩
          ⟨0, "", 4, false, 0, "XY", 0, true, 0, true, 0, 100, 0⟩).1
        ⟨100, "abc", 0, false, 0, "", 0, true, 0, true, 0, 200, 0⟩).2.1 = .ok "abc") ∧
    ("abc" : String) ≠ "" := by
  decide

/-- Claim C5 (amended): once a decompressor has marked end-of-input, every
subsequent read returns empty: for `Bzip2Decompressor`, with
`m_stream_end` set, `read` returns an empty string, keeps `m_stream_end`
set and performs no `BZ2_bzRead`; for `Bzip2BufferDecompressor`, with the
buffer cleared, `read` returns empty and is the identity, and whenever the
codec reports stream end the buffer reference is cleared so all later
reads return empty.  (Unlike the original claim, an empty chunk can also
be returned once at a multi-stream boundary before end-of-input, per the
counterexample.) -/
theorem read_empty_after_stream_end :
    (∀ (st : Bzip2Decompressor) (o : BzReadOracle), st.m_stream_end = true →
      (Bzip2Decompressor.read st o).2.1 = .ok "" ∧
      ((Bzip2Decompressor.read st o).1).m_stream_end = true ∧
      DAct.bzRead ∉ (Bzip2Decompressor.read st o).2.2) ∧
    (∀ (st : Bzip2BufferDecompressor) (o : BufReadOracle), st.m_buffer = none →
      Bzip2BufferDecompressor.read st o = (st, .ok "")) ∧
    (∀ (st : Bzip2BufferDecompressor) (o : BufReadOracle), o.result = BZ_STREAM_END →
      ((Bzip2BufferDecompressor.read st o).1).m_buffer = none) := by
  refine ⟨fun st o h => ?_, fun st o h => ?_, fun st o h => ?_⟩
  · by_cases hc : 0 < o.ftell_before ∧ st.want_pages_removed = true <;>
      simp [Bzip2Decompressor.read, h, hc]
  · simp [Bzip2BufferDecompressor.read, h]
  · cases hb : st.m_buffer <;>
      simp [Bzip2BufferDecompressor.read, hb, h, BZ_STREAM_END, BZ_OK]

/-- Concrete witness for the amended C5: an ended fd-decompressor ignores
whatever the oracle would have provided and returns empty; a cleared
buffer decompressor returns empty; a stream-end report clears the
buffer. -/
theorem read_empty_after_stream_end_witness :
    ((Bzip2Decompressor.read ⟨⟨true, false⟩, true, true, 0, false⟩
        ⟨0, "zzz", 0, false, 0, "", 0, true, 0, true, 0, 50, 0⟩).2.1 = .ok "") ∧
    (Bzip2BufferDecompressor.read ⟨none, true⟩ ⟨0, "ww", 0⟩ = (⟨none, true⟩, .ok "")) ∧
    (((Bzip2BufferDecompressor.read ⟨some 9, true⟩ ⟨4, "tail", 0⟩).1).m_buffer = none) := by
  refine ⟨?_, ?_, ?_⟩
  · exact (read_empty_after_stream_end.1 ⟨⟨true, false⟩, true, true, 0, false⟩
      ⟨0, "zzz", 0, false, 0, "", 0, true, 0, true, 0, 50, 0⟩ rfl).1
  · exact read_empty_after_stream_end.2.1 ⟨none, true⟩ ⟨0, "ww", 0⟩ rfl
  · exact read_empty_after_stream_end.2.2 ⟨some 9, true⟩ ⟨4, "tail", 0⟩ rfl

/-- Counterexample to Claim C8 as stated: when `BZ2_bzRead` reports stream
end but the `FILE` is already at EOF, the code marks the stream ended
without ever querying or re-using the leftover bytes held by the library — here
leftover "ZZ" exists, yet the action trace shows no seeded re-open, only
`markStreamEnd` — contradicting sub-case (1), which the claim says is
tried first whenever leftover bytes exist. -/
theorem stream_end_eof_ignores_leftover :
    (Bzip2Decompressor.read ⟨⟨true, false⟩, true, false, 0, false⟩
        ⟨0, "", 4, true, 0, "ZZ", 0, true, 0, true, 0, 100, 0⟩).2.2 =
      [DAct.bzRead, DAct.markStreamEnd] ∧
    ((Bzip2Decompressor.read ⟨⟨true, false⟩, true, false, 0, false⟩
        ⟨0, "", 4, true, 0, "ZZ", 0, true, 0, true, 0, 100, 0⟩).1).m_stream_end = true ∧
    ("ZZ" : String) ≠ "" := by
  decide

/-- Claim C8 (amended): on a `BZ_STREAM_END` report (with the intermediate
bzlib calls succeeding), `Bzip2Decompressor::read` first consults `feof`:
at EOF the stream is marked definitively ended regardless of leftover
bytes; otherwise the sub-cases run in order — (1) leftover bytes exist:
re-open a decode stream seeded with exactly those bytes; (2) no leftover:
open a fresh decode stream at the current position; (3) the fresh open
fails: mark the stream definitively ended. -/
theorem stream_end_subcases (st : Bzip2Decompressor) (o : BzReadOracle)
    (hend : st.m_stream_end = false) (hse : o.bzerror = BZ_STREAM_END)
    (hgu : o.get_unused_status = BZ_OK) (hrc : o.read_close_status = BZ_OK)
    (hro : o.reopen_seeded_ok = true) :
    (o.at_eof = true →
      ((Bzip2Decompressor.read st o).1).m_stream_end = true ∧
      (∀ s, DAct.reopenSeeded s ∉ (Bzip2Decompressor.read st o).2.2) ∧
      DAct.reopenFresh ∉ (Bzip2Decompressor.read st o).2.2) ∧
    (o.at_eof = false → o.unused ≠ "" →
      ((Bzip2Decompressor.read st o).1).m_stream_end = false ∧
      DAct.reopenSeeded o.unused ∈ (Bzip2Decompressor.read st o).2.2) ∧
    (o.at_eof = false → o.unused = "" → o.reopen_fresh_ok = true →
      o.reopen_fresh_status = BZ_OK →
      ((Bzip2Decompressor.read st o).1).m_stream_end = false ∧
      DAct.reopenFresh ∈ (Bzip2Decompressor.read st o).2.2) ∧
    (o.at_eof = false → o.unused = "" →
      (o.reopen_fresh_ok = false ∨ o.reopen_fresh_status ≠ BZ_OK) →
      ((Bzip2Decompressor.read st o).1).m_stream_end = true ∧
      DAct.markStreamEnd ∈ (Bzip2Decompressor.read st o).2.2) := by
  refine ⟨fun he => ?_, fun he hu => ?_, fun he hu hok hos => ?_, fun he hu hfk => ?_⟩
  · by_cases hc : 0 < o.ftell_before ∧ st.want_pages_removed = true <;>
      simp [Bzip2Decompressor.read, hend, hse, hgu, hrc, hro, he, hc,
        BZ_STREAM_END, BZ_OK]
  · by_cases hc : 0 < o.ftell_before ∧ st.want_pages_removed = true <;>
      simp [Bzip2Decompressor.read, hend, hse, hgu, hrc, hro, he, hu, hc,
        BZ_STREAM_END, BZ_OK]
  · by_cases hc : 0 < o.ftell_before ∧ st.want_pages_removed = true <;>
      simp [Bzip2Decompressor.read, hend, hse, hgu, hrc, hro, he, hu, hok, hos, hc,
        BZ_STREAM_END, BZ_OK]
  · have hcond : o.reopen_fresh_ok = false ∨ ¬ o.reopen_fresh_status = (0 : Int) := by
      rcases hfk with hfk | hfk
      · exact Or.inl hfk
      · exact Or.inr (by simpa [BZ_OK] using hfk)
    by_cases hc : 0 < o.ftell_before ∧ st.want_pages_removed = true <;>
      simp [Bzip2Decompressor.read, hend, hse, hgu, hrc, hro, he, hu, hc,
        BZ_STREAM_END, BZ_OK] <;>
      rw [if_pos hcond] <;> simp

/-- Concrete witness for the amended C8: the EOF case ends the stream with
no re-open in the trace, even with leftover bytes present in the oracle. -/
theorem stream_end_subcases_witness :
    ((Bzip2Decompressor.read ⟨⟨true, false⟩, true, false, 0, false⟩
        ⟨0, "", 4, true, 0, "QQ", 0, true, 0, true, 0, 100, 0⟩).1).m_stream_end = true ∧
    (∀ s, DAct.reopenSeeded s ∉
      (Bzip2Decompressor.read ⟨⟨true, false⟩, true, false, 0, false⟩
        ⟨0, "", 4, true, 0, "QQ", 0, true, 0, true, 0, 100, 0⟩).2.2) ∧
    DAct.reopenFresh ∉
      (Bzip2Decompressor.read ⟨⟨true, false⟩, true, false, 0, false⟩
        ⟨0, "", 4, true, 0, "QQ", 0, true, 0, true, 0, 100, 0⟩).2.2 :=
  (stream_end_subcases ⟨⟨true, false⟩, true, false, 0, false⟩
    ⟨0, "", 4, true, 0, "QQ", 0, true, 0, true, 0, 100, 0⟩
    rfl rfl rfl rfl rfl).1 rfl

end Osmium
